import Mathlib

/-!
# Verification of the discorgeous-go speech-announcer core

A shallow embedding, in Lean 4, of the queue, ingress API, auth middleware,
PCM frame reader, voice send loop and ntfy relay of the discorgeous-go
repository, together with theorems settling the specification claims.

Modelling conventions:
* Go `time.Time` / `time.Duration` are modelled as `Int` nanoseconds; the
  zero-time sentinel (`time.Time.IsZero`) becomes `Option Int`.
* Go `map[string]bool` (a set of keys) is a `List String` with set-flavoured
  insertion and removal; `delete` removes every occurrence, as a map delete
  removes the key.
* Go byte strings handled at the byte level (the relay truncates mid-rune)
  are `List Nat`; Go `len(s)` on a `String`-modelled text is
  `String.utf8ByteSize`.
* Mutation is explicit state passing; fallible operations return a result
  variant next to the new state.
-/

namespace Discorgeous

/-! ## Queue data model (src/internal/queue/job.go, src/unnamed/part_009) -/

/-- `SpeakJob` from job.go.  `id` is an opaque identifier (uuid in the
source, modelled as a caller-chosen `Nat`); times are `Int` nanoseconds,
and `expiresAt = none` models the Go zero-time sentinel. -/
structure SpeakJob where
  id : Nat
  text : String
  voice : String
  interrupt : Bool
  ttl : Int
  dedupeKey : String
  createdAt : Int
  expiresAt : Option Int
deriving Repr, DecidableEq

/-- `NewSpeakJob` from job.go: `expiresAt = now + ttl` when `ttl > 0`,
otherwise the zero sentinel.  `now` stands for `time.Now()` and `id` for
the freshly generated uuid. -/
def NewSpeakJob (id : Nat) (text voice : String) (interrupt : Bool)
    (ttl : Int) (dedupeKey : String) (now : Int) : SpeakJob :=
  { id := id, text := text, voice := voice, interrupt := interrupt,
    ttl := ttl, dedupeKey := dedupeKey, createdAt := now,
    expiresAt := if ttl > 0 then some (now + ttl) else none }

/-- `SpeakJob.IsExpired` from job.go: false on the zero sentinel, else
`time.Now().After(expiresAt)`, i.e. strictly after. -/
def IsExpired (j : SpeakJob) (now : Int) : Bool :=
  match j.expiresAt with
  | none => false
  | some e => now > e

/-- The guarded queue state from part_009 (`jobs`, `capacity`,
`dedupeKeys`, `closed`), plus `enqueueSignal` modelling whether the
1-buffered `enqueueCh` holds a pending wake signal. -/
structure QueueState where
  jobs : List SpeakJob
  capacity : Nat
  dedupeKeys : List String
  closed : Bool
  enqueueSignal : Bool
deriving Repr, DecidableEq

/-- `NewQueue` from part_009: empty jobs, empty dedupe index, open,
empty signal channel. -/
def NewQueue (capacity : Nat) : QueueState :=
  { jobs := [], capacity := capacity, dedupeKeys := [], closed := false,
    enqueueSignal := false }

/-- Set-insert for the dedupe index (`q.dedupeKeys[k] = true`). -/
def insertKey (k : String) (ks : List String) : List String :=
  if k ∈ ks then ks else k :: ks

/-- Set-delete for the dedupe index (`delete(q.dedupeKeys, k)`). -/
def removeKey (k : String) (ks : List String) : List String :=
  ks.filter (fun x => x ≠ k)

/-- Result of `Queue.Enqueue`: `nil`, or one of the three sentinel
errors of part_009. -/
inductive EnqueueResult where
  | success
  | queueClosed
  | queueFull
  | duplicateJob
deriving Repr, DecidableEq

/-- `Queue.Enqueue` from part_009: closed check, capacity check
(`len(q.jobs) >= q.capacity`), duplicate check, then append, index the
non-empty dedupe key, and non-blocking wake signal. -/
def Enqueue (q : QueueState) (job : SpeakJob) : EnqueueResult × QueueState :=
  if q.closed then (.queueClosed, q)
  else if q.jobs.length ≥ q.capacity then (.queueFull, q)
  else if job.dedupeKey ≠ "" ∧ job.dedupeKey ∈ q.dedupeKeys then
    (.duplicateJob, q)
  else
    (.success,
     { q with
        jobs := q.jobs ++ [job],
        dedupeKeys :=
          if job.dedupeKey ≠ "" then insertKey job.dedupeKey q.dedupeKeys
          else q.dedupeKeys,
        enqueueSignal := true })

/-- The loop body of `Queue.dequeue` from part_009, explicit over the job
list and dedupe index: pop the head, release its key, skip it if expired,
else return it. -/
def dequeueAux (now : Int) :
    List SpeakJob → List String → Option SpeakJob × List SpeakJob × List String
  | [], ks => (none, [], ks)
  | j :: rest, ks =>
    let ks' := if j.dedupeKey ≠ "" then removeKey j.dedupeKey ks else ks
    if IsExpired j now then dequeueAux now rest ks'
    else (some j, rest, ks')

/-- `Queue.dequeue` from part_009. -/
def dequeue (q : QueueState) (now : Int) : Option SpeakJob × QueueState :=
  let r := dequeueAux now q.jobs q.dedupeKeys
  (r.1, { q with jobs := r.2.1, dedupeKeys := r.2.2 })

/-- `Queue.Interrupt` from part_009, restricted to the guarded queue
state: clear `jobs` and reset the dedupe index (the in-flight context
cancellation is a side effect outside this state). -/
def Interrupt (q : QueueState) : QueueState :=
  { q with jobs := [], dedupeKeys := [] }

/-- `Queue.Stop` from part_009, restricted to the guarded queue state:
mark the queue closed. -/
def Stop (q : QueueState) : QueueState :=
  { q with closed := true }

/-- The dedupe-index invariant of a queue state: every queued job with a
non-empty dedupe key is indexed. -/
def WFQueue (q : QueueState) : Prop :=
  ∀ j ∈ q.jobs, j.dedupeKey ≠ "" → j.dedupeKey ∈ q.dedupeKeys

instance (q : QueueState) : Decidable (WFQueue q) := by
  unfold WFQueue; infer_instance

/-! ## Graceful stop (spec-modelled)

The repository's tests (`queue_test.go`: `TestShutdownCallback`,
`TestShutdownCallbackCalledAfterWorkerStops`) and `main` exercise
`SetShutdownCallback`, but the queue source captured under src/
(part_009) predates that feature: its `Stop` only marks the queue
closed, cancels the in-flight context, closes `stopCh` and waits on the
worker's wait group.  The shutdown-callback-bearing `Stop` is therefore
modelled from the spec. -/

/-- The observable steps of a `Stop` call, in program order. -/
inductive StopEvent where
  | markClosed
  | cancelCurrent
  | signalStop
  | workerExited
  | shutdownCallback
deriving Repr, DecidableEq

/-- Modelled from the spec: the missing shutdown-callback-bearing
`Queue.Stop`.  "`Stop()`: mark closed, cancel current, signal the worker
to exit, wait for it, then invoke the shutdown callback (if any)."
`hasCancel` is whether an in-flight job exists (`cancelCurrent != nil`),
`hasCallback` whether a shutdown callback was set; `workerExited` is the
point at which `wg.Wait()` returns, which is after the worker goroutine
has exited. -/
def StopTrace (hasCancel hasCallback : Bool) : List StopEvent :=
  [.markClosed]
    ++ (if hasCancel then [.cancelCurrent] else [])
    ++ [.signalStop, .workerExited]
    ++ (if hasCallback then [.shutdownCallback] else [])

/-! ## Ingress API (src/internal/api/handlers.go, middleware.go) -/

/-- The configuration fields `handleSpeak` and `withAuth` read
(config.go): durations in `Int` nanoseconds. -/
structure ApiConfig where
  maxTextLength : Nat
  defaultVoice : String
  defaultTTL : Int
  bearerToken : String
deriving Repr, DecidableEq

/-- The decoded body of `POST /v1/speak` (handlers.go `SpeakRequest`);
`ttlMs : Int` since Go `int` may be negative. -/
structure SpeakRequest where
  text : String
  voice : String
  interrupt : Bool
  ttlMs : Int
  dedupeKey : String
deriving Repr, DecidableEq

/-- The HTTP outcome of `handleSpeak`: status code and, on 202, the new
job's id. -/
structure SpeakOutcome where
  status : Nat
  jobId : Option Nat
deriving Repr, DecidableEq

/-- `time.Millisecond` in nanoseconds. -/
def millisecond : Int := 1000000

/-- The TTL computation of `handleSpeak`: `time.Duration(req.TTLMS) *
time.Millisecond` when `ttl_ms > 0`, else the configured default TTL
when positive, else zero. -/
def speakTTL (cfg : ApiConfig) (ttlMs : Int) : Int :=
  if ttlMs > 0 then ttlMs * millisecond
  else if cfg.defaultTTL > 0 then cfg.defaultTTL
  else 0

/-- `Server.handleSpeak` from handlers.go, with the queue wired
(`s.queue != nil`): JSON decode failure is `body = none`; Go
`len(req.Text)` is the UTF-8 byte size; `newId` stands for the uuid of
the created job and `now` for `time.Now()`. -/
def handleSpeak (cfg : ApiConfig) (q : QueueState) (body : Option SpeakRequest)
    (newId : Nat) (now : Int) : SpeakOutcome × QueueState :=
  match body with
  | none => ({ status := 400, jobId := none }, q)
  | some req =>
    if req.text = "" then ({ status := 400, jobId := none }, q)
    else if req.text.utf8ByteSize > cfg.maxTextLength then
      ({ status := 400, jobId := none }, q)
    else if req.ttlMs < 0 then ({ status := 400, jobId := none }, q)
    else
      let voice := if req.voice = "" then cfg.defaultVoice else req.voice
      let ttl := speakTTL cfg req.ttlMs
      let q1 := if req.interrupt then Interrupt q else q
      let job := NewSpeakJob newId req.text voice req.interrupt ttl
        req.dedupeKey now
      match Enqueue q1 job with
      | (.queueFull, q2) => ({ status := 503, jobId := none }, q2)
      | (.duplicateJob, q2) => ({ status := 409, jobId := none }, q2)
      | (.queueClosed, q2) => ({ status := 500, jobId := none }, q2)
      | (.success, q2) => ({ status := 202, jobId := some job.id }, q2)

/-! ### Auth middleware (middleware.go) -/

/-- The four ways `withAuth` can dispose of a request: pass it to the
wrapped handler, or reject 401 as missing header / invalid format /
invalid token. -/
inductive AuthOutcome where
  | pass
  | missingHeader
  | invalidFormat
  | invalidToken
deriving Repr, DecidableEq

/-- `strings.SplitN(s, " ", 2)`: at most two parts, split at the first
space.  On a string with no space (including the empty string) Go
returns the one-element list holding the string itself. -/
def splitTwo (s : String) : List String :=
  match s.toList.findIdx? (fun c => c = ' ') with
  | none => [s]
  | some i => [String.mk (s.toList.take i), String.mk (s.toList.drop (i + 1))]

/-- ASCII case folding of one character. -/
def foldAscii (c : Char) : Char :=
  if 'A' ≤ c ∧ c ≤ 'Z' then Char.ofNat (c.toNat + 32) else c

/-- `strings.EqualFold` restricted to ASCII simple folding, which is
exact for the `"Bearer"` scheme comparison the middleware performs. -/
def equalFoldAscii (a b : String) : Bool :=
  a.toList.map foldAscii = b.toList.map foldAscii

/-- `Server.withAuth` from middleware.go, as the disposition of one
request whose `Authorization` header is `authHeader` (Go's
`Header.Get` returns `""` for a missing header). -/
def withAuth (bearerToken authHeader : String) : AuthOutcome :=
  if bearerToken = "" then .pass
  else if authHeader = "" then .missingHeader
  else
    let parts := splitTwo authHeader
    if parts.length ≠ 2 ∨ ¬ equalFoldAscii (parts.headD "") "Bearer" then
      .invalidFormat
    else if parts.getD 1 "" ≠ bearerToken then .invalidToken
    else .pass

/-- The spec's reading of the auth contract, written from the claim's
words for comparison with `withAuth`: no configured token → pass
everything; otherwise the header must split into exactly two parts
whose scheme is case-insensitively `Bearer` and whose token equals the
configured one, with a missing header, a malformed header and a
mismatched token rejected distinctly. -/
def authSpec (bearerToken authHeader : String) : AuthOutcome :=
  if bearerToken = "" then .pass
  else
    match splitTwo authHeader with
    | [scheme, tok] =>
      if equalFoldAscii scheme "Bearer" then
        if tok = bearerToken then .pass else .invalidToken
      else .invalidFormat
    | _ => if authHeader = "" then .missingHeader else .invalidFormat

/-- Cost model of the token comparison `token != s.cfg.BearerToken`
actually performed by middleware.go: Go string comparison checks the
lengths first and then scans bytewise, stopping at the first mismatch.
The cost is the number of character comparisons performed. -/
def cmpScanCost : List Char → List Char → Nat
  | [], _ => 0
  | _, [] => 0
  | x :: xs, y :: ys => 1 + (if x = y then cmpScanCost xs ys else 0)

/-- Number of character comparisons `token != s.cfg.BearerToken`
performs on candidate `b` against configured token `a`. -/
def tokenCompareCost (a b : String) : Nat :=
  if a.length = b.length then cmpScanCost a.toList b.toList else 0

/-! ## Audio frame reader (src/unnamed/part_002) -/

/-- `DiscordFrameBytes = DiscordFrameSize * DiscordChannels * 2`. -/
def DiscordFrameBytes : Nat := 960 * 2 * 2

/-- `PCMFrameReader` from part_002: a byte buffer and an offset. -/
structure PCMFrameReader where
  data : List Nat
  offset : Nat
deriving Repr, DecidableEq

/-- `NewPCMFrameReader`. -/
def NewPCMFrameReader (pcm : List Nat) : PCMFrameReader :=
  { data := pcm, offset := 0 }

/-- `PCMFrameReader.ReadFrame`: the next `DiscordFrameBytes`-byte slice,
advancing the offset; `none` (io.EOF) when fewer than a full frame
remain. -/
def ReadFrame (r : PCMFrameReader) : Option (List Nat) × PCMFrameReader :=
  if r.offset + DiscordFrameBytes > r.data.length then (none, r)
  else (some ((r.data.drop r.offset).take DiscordFrameBytes),
        { r with offset := r.offset + DiscordFrameBytes })

/-- `PCMFrameReader.Reset`. -/
def Reset (r : PCMFrameReader) : PCMFrameReader :=
  { r with offset := 0 }

/-- Iterate `ReadFrame` up to `n` times, collecting the frames returned
before end-of-stream. -/
def readFrames (r : PCMFrameReader) : Nat → List (List Nat) × PCMFrameReader
  | 0 => ([], r)
  | n + 1 =>
    match ReadFrame r with
    | (none, r') => ([], r')
    | (some f, r') =>
      let rest := readFrames r' n
      (f :: rest.1, rest.2)

/-! ## Voice send loop (src/internal/discord/voice.go `SendAudio`) -/

/-- Result of `SendAudio`: `nil`, `ErrNotConnected`, `ErrSpeakingFailed`
or the context's cancellation error. -/
inductive SendResult where
  | ok
  | notConnected
  | speakingFailed
  | cancelled
deriving Repr, DecidableEq

/-- Whether the job context is done at tick `tick` under cancellation
schedule `cancelAt` (`none`: never cancelled). -/
def cancelledAt (cancelAt : Option Nat) (tick : Nat) : Bool :=
  match cancelAt with
  | none => false
  | some k => tick ≥ k

/-- The ticker loop of `SendAudio`: each tick checks the context, reads
a frame (EOF → return `nil`), encodes it (a per-frame encoding failure
is logged and the frame skipped, via `encodeOk`), and sends it on the
outbound channel.  The returned list is the sequence of frames sent, in
source order. -/
def sendLoop (cancelAt : Option Nat) (encodeOk : Nat → Bool)
    (data : List Nat) (off tick : Nat) : SendResult × List (List Nat) :=
  if cancelledAt cancelAt tick then (.cancelled, [])
  else if h : off + DiscordFrameBytes > data.length then (.ok, [])
  else
    let frame := (data.drop off).take DiscordFrameBytes
    if encodeOk tick then
      let rest := sendLoop cancelAt encodeOk data (off + DiscordFrameBytes) (tick + 1)
      (rest.1, frame :: rest.2)
    else
      sendLoop cancelAt encodeOk data (off + DiscordFrameBytes) (tick + 1)
termination_by data.length - off
decreasing_by all_goals simp only [DiscordFrameBytes, not_lt] at h ⊢; omega

/-- `VoiceManager.SendAudio` from voice.go: snapshot `(conn, attached)`
(here `connected`), fail `ErrNotConnected` when detached; signal
speaking on (`speakingOk` is whether `vc.Speaking(true)` succeeds),
failing with `ErrSpeakingFailed` before any frame; then run the ticker
loop over a fresh frame reader. -/
def SendAudio (connected speakingOk : Bool) (cancelAt : Option Nat)
    (encodeOk : Nat → Bool) (pcm : List Nat) : SendResult × List (List Nat) :=
  if ¬ connected then (.notConnected, [])
  else if ¬ speakingOk then (.speakingFailed, [])
  else sendLoop cancelAt encodeOk pcm 0 0

/-! ## SHA-256 (crypto/sha256, used by the relay's dedupe fingerprint)

An executable FIPS 180-4 SHA-256 over byte lists, with 32-bit words as
`Nat` reduced mod `2 ^ 32`. -/

/-- Byte strings handled at the byte level. -/
abbrev Bytes := List Nat

/-- Truncate to a 32-bit word. -/
def w32 (x : Nat) : Nat := x % 4294967296

/-- 32-bit right rotation. -/
def rotr32 (n x : Nat) : Nat :=
  w32 ((x >>> n) ||| (x <<< (32 - n)))

/-- SHA-256 initial hash values (FIPS 180-4 §5.3.3, in decimal). -/
def sha256H0 : List Nat :=
  [1779033703, 3144134277, 1013904242, 2773480762, 1359893119,
   2600822924, 528734635, 1541459225]

/-- SHA-256 round constants (FIPS 180-4 §4.2.2, in decimal). -/
def sha256K : List Nat :=
  [1116352408, 1899447441, 3049323471, 3921009573, 961987163,
   1508970993, 2453635748, 2870763221, 3624381080, 310598401,
   607225278, 1426881987, 1925078388, 2162078206, 2614888103,
   3248222580, 3835390401, 4022224774, 264347078, 604807628,
   770255983, 1249150122, 1555081692, 1996064986, 2554220882,
   2821834349, 2952996808, 3210313671, 3336571891, 3584528711,
   113926993, 338241895, 666307205, 773529912, 1294757372,
   1396182291, 1695183700, 1986661051, 2177026350, 2456956037,
   2730485921, 2820302411, 3259730800, 3345764771, 3516065817,
   3600352804, 4094571909, 275423344, 430227734, 506948616,
   659060556, 883997877, 958139571, 1322822218, 1537002063,
   1747873779, 1955562222, 2024104815, 2227730452, 2361852424,
   2428436474, 2756734187, 3204031479, 3329325298]

/-- Message padding: append `0x80`, zeros to 56 mod 64, then the
bit length as 8 big-endian bytes. -/
def sha256Pad (msg : Bytes) : Bytes :=
  let len := msg.length
  let zeros := (64 + 56 - (len + 1) % 64) % 64
  let bitLen := 8 * len
  msg ++ [0x80] ++ List.replicate zeros 0 ++
    [(bitLen >>> 56) % 256, (bitLen >>> 48) % 256, (bitLen >>> 40) % 256,
     (bitLen >>> 32) % 256, (bitLen >>> 24) % 256, (bitLen >>> 16) % 256,
     (bitLen >>> 8) % 256, bitLen % 256]

/-- Split a padded message into 64-byte chunks. -/
def chunks64 : Bytes → List Bytes
  | [] => []
  | b :: rest => ((b :: rest).take 64) :: chunks64 ((b :: rest).drop 64)
termination_by l => l.length
decreasing_by simp; omega

/-- Four big-endian bytes to one word. -/
def word4 : Bytes → Nat
  | a :: b :: c :: d :: _ => ((a * 256 + b) * 256 + c) * 256 + d
  | _ => 0

/-- A 64-byte chunk as 16 big-endian words. -/
def chunkWords (chunk : Bytes) : List Nat :=
  (List.range 16).map (fun i => word4 (chunk.drop (4 * i)))

/-- σ₀. -/
def sSig0 (x : Nat) : Nat := (rotr32 7 x) ^^^ (rotr32 18 x) ^^^ (x >>> 3)

/-- σ₁. -/
def sSig1 (x : Nat) : Nat := (rotr32 17 x) ^^^ (rotr32 19 x) ^^^ (x >>> 10)

/-- Σ₀. -/
def bSig0 (x : Nat) : Nat := (rotr32 2 x) ^^^ (rotr32 13 x) ^^^ (rotr32 22 x)

/-- Σ₁. -/
def bSig1 (x : Nat) : Nat := (rotr32 6 x) ^^^ (rotr32 11 x) ^^^ (rotr32 25 x)

/-- One message-schedule extension step on the reversed schedule
(head = most recent word): `w[i] = w[i-16] + σ₀ w[i-15] + w[i-7] +
σ₁ w[i-2]`. -/
def schedStep (rw : List Nat) : Nat :=
  w32 (rw.getD 15 0 + sSig0 (rw.getD 14 0) + rw.getD 6 0 + sSig1 (rw.getD 1 0))

/-- Extend the reversed schedule `n` times. -/
def schedExtend : Nat → List Nat → List Nat
  | 0, rw => rw
  | n + 1, rw => schedExtend n (schedStep rw :: rw)

/-- The 64-word message schedule of a chunk. -/
def messageSchedule (chunk : Bytes) : List Nat :=
  (schedExtend 48 (chunkWords chunk).reverse).reverse

/-- One compression round; the state is `[a, b, c, d, e, f, g, h]`. -/
def compressStep (st : List Nat) (kw : Nat × Nat) : List Nat :=
  let a := st.getD 0 0
  let b := st.getD 1 0
  let c := st.getD 2 0
  let d := st.getD 3 0
  let e := st.getD 4 0
  let f := st.getD 5 0
  let g := st.getD 6 0
  let h := st.getD 7 0
  let ch := (e &&& f) ^^^ ((4294967295 - e) &&& g)
  let maj := (a &&& b) ^^^ (a &&& c) ^^^ (b &&& c)
  let t1 := w32 (h + bSig1 e + ch + kw.1 + kw.2)
  let t2 := w32 (bSig0 a + maj)
  [w32 (t1 + t2), a, b, c, w32 (d + t1), e, f, g]

/-- Compress one 64-byte chunk into the running hash. -/
def compressChunk (h : List Nat) (chunk : Bytes) : List Nat :=
  let w := messageSchedule chunk
  let final := (sha256K.zip w).foldl compressStep h
  (h.zip final).map (fun p => w32 (p.1 + p.2))

/-- One word as four big-endian bytes. -/
def wordBytes (x : Nat) : Bytes :=
  [(x >>> 24) % 256, (x >>> 16) % 256, (x >>> 8) % 256, x % 256]

/-- `sha256.Sum256`: the 32-byte SHA-256 digest of a byte string. -/
def sha256 (msg : Bytes) : Bytes :=
  (((chunks64 (sha256Pad msg)).foldl compressChunk sha256H0).map wordBytes).flatten

/-- A lowercase hexadecimal digit. -/
def hexDigit (n : Nat) : Char :=
  if n < 10 then Char.ofNat (48 + n) else Char.ofNat (87 + n)

/-- `hex.EncodeToString`: lowercase hex of a byte string. -/
def hexEncode (bs : Bytes) : String :=
  String.mk ((bs.map (fun b => [hexDigit (b / 16), hexDigit (b % 16)])).flatten)

/-! ## Ntfy relay (src/unnamed/part_001) -/

/-- The relay configuration fields the message path reads; the
announcement prefix is a byte string (`NTFY_PREFIX`), `dedupeWindow` is
`Int` nanoseconds (0 disables dedupe). -/
structure RelayConfig where
  prefixText : Bytes
  interrupt : Bool
  dedupeWindow : Int
  maxTextLength : Nat
deriving Repr, DecidableEq

/-- `Client.FormatText` from part_001: append prefix, title and message
when non-empty, `strings.Join` with `": "` (bytes 58, 32), and truncate
byte-wise to `maxTextLength` when longer. -/
def FormatText (cfg : RelayConfig) (title message : Bytes) : Bytes :=
  let parts : List Bytes :=
    (if cfg.prefixText ≠ [] then [cfg.prefixText] else [])
      ++ (if title ≠ [] then [title] else [])
      ++ (if message ≠ [] then [message] else [])
  let text := List.intercalate [58, 32] parts
  if text.length > cfg.maxTextLength then text.take cfg.maxTextLength
  else text

/-- `Client.generateDedupeKey` from part_001:
`hex.EncodeToString(sha256.Sum256(text)[:8])`. -/
def generateDedupeKey (text : Bytes) : String :=
  hexEncode ((sha256 text).take 8)

/-- The relay dedupe map, fingerprint → first-seen time. -/
abbrev DedupeMap := List (String × Int)

/-- `Client.isDuplicate` from part_001: the key is live when present
and `time.Since(seenAt) < dedupeWindow`. -/
def isDuplicate (m : DedupeMap) (window now : Int) (key : String) : Bool :=
  match m.lookup key with
  | some seenAt => now - seenAt < window
  | none => false

/-- `Client.recordDedupeKey` from part_001: map assignment of the
current time. -/
def recordDedupeKey (m : DedupeMap) (now : Int) (key : String) : DedupeMap :=
  (key, now) :: m.filter (fun p => p.1 ≠ key)

/-- One newline-delimited ntfy stream object, restricted to the fields
the message path reads; `title` and `message` as byte strings. -/
structure NtfyMessage where
  event : String
  title : Bytes
  message : Bytes
deriving Repr, DecidableEq

/-- The per-event message path of part_001 (`subscribeTopic`'s event
filter plus `handleMessage`): skip non-`"message"` events; format the
text and drop it when empty; when the dedupe window is positive,
fingerprint, drop live duplicates, and record the key; otherwise submit
with an empty dedupe key.  Returns the `(text, dedupe_key)` submitted to
`POST /v1/speak` (if any) and the updated dedupe map. -/
def processEvent (cfg : RelayConfig) (m : DedupeMap) (now : Int)
    (msg : NtfyMessage) : Option (Bytes × String) × DedupeMap :=
  if msg.event ≠ "message" then (none, m)
  else
    let text := FormatText cfg msg.title msg.message
    if text = [] then (none, m)
    else if cfg.dedupeWindow > 0 then
      let key := generateDedupeKey text
      if isDuplicate m cfg.dedupeWindow now key then (none, m)
      else (some (text, key), recordDedupeKey m now key)
    else (some (text, ""), m)

/-! ## Helper lemmas -/

/-- Release the dedupe keys of a list of removed jobs, in order. -/
def releaseKeys (ks : List String) (l : List SpeakJob) : List String :=
  l.foldl
    (fun ks j => if j.dedupeKey ≠ "" then removeKey j.dedupeKey ks else ks) ks

theorem releaseKeys_cons (ks : List String) (a : SpeakJob) (l : List SpeakJob) :
    releaseKeys ks (a :: l) =
      releaseKeys
        (if a.dedupeKey ≠ "" then removeKey a.dedupeKey ks else ks) l := rfl

theorem not_mem_removeKey (k : String) (ks : List String) :
    k ∉ removeKey k ks := by
  simp [removeKey, List.mem_filter]

/-- Full characterization of the `dequeue` loop body: the expired prefix
is skipped, the first non-expired job (if any) is returned, and the keys
of every removed job are released. -/
theorem dequeueAux_eq (now : Int) (jobs : List SpeakJob) (ks : List String) :
    (jobs.dropWhile (fun j => IsExpired j now) = [] →
       dequeueAux now jobs ks = (none, [], releaseKeys ks jobs)) ∧
    (∀ j rest, jobs.dropWhile (fun j => IsExpired j now) = j :: rest →
       IsExpired j now = false ∧
       dequeueAux now jobs ks =
         (some j, rest,
          releaseKeys ks (jobs.takeWhile (fun j => IsExpired j now) ++ [j]))) := by
  induction jobs generalizing ks with
  | nil => simp [dequeueAux, releaseKeys]
  | cons a tl ih =>
    by_cases hexp : IsExpired a now = true
    · constructor
      · intro hdw
        rw [List.dropWhile_cons_of_pos (by simp [hexp])] at hdw
        have h1 :=
          (ih (if a.dedupeKey ≠ "" then removeKey a.dedupeKey ks else ks)).1 hdw
        simp only [dequeueAux, hexp, if_true, releaseKeys_cons]
        exact h1
      · intro j rest hdw
        rw [List.dropWhile_cons_of_pos (by simp [hexp])] at hdw
        have h2 :=
          (ih (if a.dedupeKey ≠ "" then removeKey a.dedupeKey ks else ks)).2
            j rest hdw
        refine ⟨h2.1, ?_⟩
        simp only [dequeueAux, hexp, if_true, releaseKeys_cons]
        rw [List.takeWhile_cons_of_pos (by simp [hexp])]
        simp only [List.cons_append, releaseKeys_cons]
        exact h2.2
    · rw [Bool.not_eq_true] at hexp
      constructor
      · intro hdw
        rw [List.dropWhile_cons_of_neg (by simp [hexp])] at hdw
        exact absurd hdw (by simp)
      · intro j rest hdw
        rw [List.dropWhile_cons_of_neg (by simp [hexp])] at hdw
        have hja : a = j := by simpa using congrArg (fun l => l.headD a) hdw
        have htl : tl = rest := by simpa using congrArg List.tail hdw
        subst hja htl
        refine ⟨hexp, ?_⟩
        rw [List.takeWhile_cons_of_neg (by simp [hexp])]
        simp [dequeueAux, hexp, releaseKeys_cons, releaseKeys]

/-- When the loop body returns a job with a non-empty dedupe key, that
key is absent from the returned index. -/
theorem dequeueAux_key_removed (now : Int) (jobs : List SpeakJob) :
    ∀ (ks ks' : List String) (j : SpeakJob) (rest : List SpeakJob),
      dequeueAux now jobs ks = (some j, rest, ks') → j.dedupeKey ≠ "" →
      j.dedupeKey ∉ ks' := by
  induction jobs with
  | nil => intro ks ks' j rest h; simp [dequeueAux] at h
  | cons a tl ih =>
    intro ks ks' j rest h hne
    by_cases hexp : IsExpired a now = true
    · simp only [dequeueAux, hexp, if_true] at h
      exact ih _ _ _ _ h hne
    · simp only [dequeueAux] at h
      rw [if_neg hexp] at h
      have hja : a = j := by
        simpa using congrArg (fun p => p.1.getD a) h
      subst hja
      have hks : ks' = if a.dedupeKey ≠ "" then removeKey a.dedupeKey ks else ks := by
        simpa using (congrArg (fun p => p.2.2) h).symm
      rw [hks, if_pos hne]
      exact not_mem_removeKey _ _

/-! ## Claim theorems -/

/-- C1: `Enqueue` returns `queue_closed` on a closed queue, `queue_full`
when the queued jobs reach the capacity, `duplicate_job` when the job's
non-empty dedupe key is indexed; otherwise it appends the job at the
tail, indexes its non-empty dedupe key, raises the wake signal and
succeeds.  On every error return the job sequence and dedupe index are
unchanged. -/
theorem enqueue_contract (q : QueueState) (job : SpeakJob) :
    (q.closed = true → Enqueue q job = (.queueClosed, q)) ∧
    (q.closed = false → q.jobs.length = q.capacity →
       Enqueue q job = (.queueFull, q)) ∧
    (q.closed = false → q.jobs.length < q.capacity →
       job.dedupeKey ≠ "" → job.dedupeKey ∈ q.dedupeKeys →
       Enqueue q job = (.duplicateJob, q)) ∧
    (q.closed = false → q.jobs.length < q.capacity →
       (job.dedupeKey = "" ∨ job.dedupeKey ∉ q.dedupeKeys) →
       Enqueue q job =
         (.success,
          { q with
             jobs := q.jobs ++ [job],
             dedupeKeys :=
               if job.dedupeKey ≠ "" then insertKey job.dedupeKey q.dedupeKeys
               else q.dedupeKeys,
             enqueueSignal := true })) ∧
    ((Enqueue q job).1 ≠ .success → (Enqueue q job).2 = q) := by
  refine ⟨?_, ?_, ?_, ?_, ?_⟩
  · intro hc; simp [Enqueue, hc]
  · intro hc hlen; simp [Enqueue, hc, hlen]
  · intro hc hlen hk hmem
    simp [Enqueue, hc, Nat.not_le.mpr hlen, hk, hmem]
  · intro hc hlen hor
    have hnd : ¬ (job.dedupeKey ≠ "" ∧ job.dedupeKey ∈ q.dedupeKeys) := by
      rcases hor with h | h <;> simp [h]
    simp [Enqueue, hc, Nat.not_le.mpr hlen, hnd]
  · intro hne
    by_cases h1 : q.closed = true
    · simp [Enqueue, h1]
    · by_cases h2 : q.jobs.length ≥ q.capacity
      · simp [Enqueue, h1, h2]
      · by_cases h3 : job.dedupeKey ≠ "" ∧ job.dedupeKey ∈ q.dedupeKeys
        · simp [Enqueue, h1, h2, h3]
        · exact absurd (by simp [Enqueue, h1, h2, h3]) hne

/-- C1 witness: on a fresh open queue of capacity 2 the enqueue of a
keyless job succeeds. -/
theorem enqueue_contract_witness :
    (NewQueue 2).closed = false ∧
    (Enqueue (NewQueue 2) (NewSpeakJob 1 "hi" "default" false 0 "" 0)).1 =
      .success := by
  refine ⟨by decide, ?_⟩
  have h :=
    (enqueue_contract (NewQueue 2)
      (NewSpeakJob 1 "hi" "default" false 0 "" 0)).2.2.2.1
      (by decide) (by decide) (Or.inl (by decide))
  rw [h]

/-- C2 counterexample: the capacity check precedes the duplicate check,
so on a full open queue that holds a job with dedupe key `"k"`, a second
enqueue with key `"k"` returns `queue_full`, not `duplicate_job`. -/
theorem dedupe_while_queued_counterexample :
    (Enqueue (NewQueue 1) (NewSpeakJob 1 "A" "default" false 0 "k" 0)).1 =
      .success ∧
    (NewSpeakJob 1 "A" "default" false 0 "k" 0) ∈
      ((Enqueue (NewQueue 1) (NewSpeakJob 1 "A" "default" false 0 "k" 0)).2).jobs ∧
    (Enqueue ((Enqueue (NewQueue 1) (NewSpeakJob 1 "A" "default" false 0 "k" 0)).2)
        (NewSpeakJob 2 "B" "default" false 0 "k" 0)).1 = .queueFull ∧
    (Enqueue ((Enqueue (NewQueue 1) (NewSpeakJob 1 "A" "default" false 0 "k" 0)).2)
        (NewSpeakJob 2 "B" "default" false 0 "k" 0)).1 ≠ .duplicateJob := by
  decide

/-- C2 (amended): while a job with non-empty dedupe key `k` is queued,
an enqueue with key `k` returns `duplicate_job` provided the queue is
open and below capacity (the closed and full checks run first); and once
`dequeue` hands that job to the worker its key is already released, so a
new enqueue with key `k` succeeds while the job is merely in flight. -/
theorem dedupe_in_queue_only (q : QueueState) (j' : SpeakJob) (k : String)
    (hk : k ≠ "") (hkey : j'.dedupeKey = k) :
    ((∃ j ∈ q.jobs, j.dedupeKey = k) → WFQueue q → q.closed = false →
       q.jobs.length < q.capacity → Enqueue q j' = (.duplicateJob, q)) ∧
    (∀ (now : Int) (j : SpeakJob) (q1 : QueueState),
       dequeue q now = (some j, q1) → j.dedupeKey = k →
       q1.closed = false → q1.jobs.length < q1.capacity →
       (Enqueue q1 j').1 = .success) := by
  constructor
  · rintro ⟨j, hj, hjk⟩ hwf hc hlen
    have hmem : k ∈ q.dedupeKeys := hjk ▸ hwf j hj (hjk ▸ hk)
    simp [Enqueue, hc, Nat.not_le.mpr hlen, hkey, hk, hmem]
  · intro now j q1 hdq hjk hc hlen
    have hfst : (dequeueAux now q.jobs q.dedupeKeys).1 = some j :=
      congrArg Prod.fst hdq
    have hsnd : q1.dedupeKeys = (dequeueAux now q.jobs q.dedupeKeys).2.2 := by
      have := congrArg Prod.snd hdq
      simp only [dequeue] at this
      exact (congrArg QueueState.dedupeKeys this).symm
    have hnot : j.dedupeKey ∉ (dequeueAux now q.jobs q.dedupeKeys).2.2 := by
      apply dequeueAux_key_removed now q.jobs q.dedupeKeys _ j
        (dequeueAux now q.jobs q.dedupeKeys).2.1 _ (hjk ▸ hk)
      rw [← hfst]
    have hnot1 : j'.dedupeKey ∉ q1.dedupeKeys := by
      rw [hkey, ← hjk, hsnd]; exact hnot
    have hnd : ¬ (j'.dedupeKey ≠ "" ∧ j'.dedupeKey ∈ q1.dedupeKeys) := by
      simp [hnot1]
    simp [Enqueue, hc, Nat.not_le.mpr hlen, hnd]

/-- C2 witness: on an open two-slot queue holding a job with key
`"k"`, a second enqueue with key `"k"` is rejected as a duplicate. -/
theorem dedupe_in_queue_only_witness :
    ("k" : String) ≠ "" ∧
    (Enqueue ((Enqueue (NewQueue 2) (NewSpeakJob 1 "A" "default" false 0 "k" 0)).2)
        (NewSpeakJob 2 "B" "default" false 0 "k" 0)).1 = .duplicateJob := by
  refine ⟨by decide, ?_⟩
  have h :=
    (dedupe_in_queue_only
        ((Enqueue (NewQueue 2) (NewSpeakJob 1 "A" "default" false 0 "k" 0)).2)
        (NewSpeakJob 2 "B" "default" false 0 "k" 0) "k"
        (by decide) (by decide)).1
      ⟨NewSpeakJob 1 "A" "default" false 0 "k" 0, by decide, by decide⟩
      (by decide) (by decide) (by decide)
  rw [h]

/-- C3: `dequeue` scans from the head in FIFO order, releasing the
dedupe key of every removed job; expired jobs are skipped and discarded;
the first non-expired job is returned; `none` is returned when nothing
non-expired remains (in particular on an empty queue). -/
theorem dequeue_fifo_ttl (q : QueueState) (now : Int) :
    (q.jobs.dropWhile (fun j => IsExpired j now) = [] →
       dequeue q now =
         (none,
          { q with jobs := [],
                   dedupeKeys := releaseKeys q.dedupeKeys q.jobs })) ∧
    (∀ j rest, q.jobs.dropWhile (fun j => IsExpired j now) = j :: rest →
       IsExpired j now = false ∧
       (∀ x ∈ q.jobs.takeWhile (fun j => IsExpired j now),
          IsExpired x now = true) ∧
       dequeue q now =
         (some j,
          { q with jobs := rest,
                   dedupeKeys :=
                     releaseKeys q.dedupeKeys
                       (q.jobs.takeWhile (fun j => IsExpired j now) ++ [j]) })) := by
  constructor
  · intro hdw
    have h := (dequeueAux_eq now q.jobs q.dedupeKeys).1 hdw
    simp [dequeue, h]
  · intro j rest hdw
    have h := (dequeueAux_eq now q.jobs q.dedupeKeys).2 j rest hdw
    refine ⟨h.1, fun x hx => by simpa using List.mem_takeWhile_imp hx, ?_⟩
    simp [dequeue, h.2]

/-- C3 witness: a queue holding an expired keyed job ahead of a live
job hands out the live job, drops the expired one, and releases both
keys. -/
theorem dequeue_fifo_ttl_witness :
    (let jexp : SpeakJob := NewSpeakJob 1 "old" "default" false 5 "a" 0
     let jlive : SpeakJob := NewSpeakJob 2 "new" "default" false 0 "b" 0
     let q : QueueState :=
       { jobs := [jexp, jlive], capacity := 10, dedupeKeys := ["a", "b"],
         closed := false, enqueueSignal := true }
     [jexp, jlive].dropWhile (fun j => IsExpired j 100) = [jlive] ∧
     dequeue q 100 =
       (some jlive,
        { q with jobs := [],
                 dedupeKeys :=
                   releaseKeys q.dedupeKeys
                     ([jexp, jlive].takeWhile (fun j => IsExpired j 100) ++ [jlive]) })) := by
  refine ⟨by decide, ?_⟩
  exact ((dequeue_fifo_ttl
      { jobs := [NewSpeakJob 1 "old" "default" false 5 "a" 0,
                 NewSpeakJob 2 "new" "default" false 0 "b" 0],
        capacity := 10, dedupeKeys := ["a", "b"], closed := false,
        enqueueSignal := true } 100).2
    (NewSpeakJob 2 "new" "default" false 0 "b" 0) [] (by decide)).2.2

/-- C4 counterexample: with the stock configuration (`DEFAULT_TTL` 30 s)
a speak request with `ttl_ms = 0` is accepted with status 202, yet the
enqueued job carries the default TTL: one nanosecond past 30 s it is
expired and a dequeue at that time skips and discards it. -/
theorem ttl_zero_counterexample :
    ((handleSpeak
        { maxTextLength := 1000, defaultVoice := "default",
          defaultTTL := 30000000000, bearerToken := "" }
        (NewQueue 100)
        (some { text := "hi", voice := "", interrupt := false, ttlMs := 0,
                dedupeKey := "" }) 1 0).1.status = 202) ∧
    ((handleSpeak
        { maxTextLength := 1000, defaultVoice := "default",
          defaultTTL := 30000000000, bearerToken := "" }
        (NewQueue 100)
        (some { text := "hi", voice := "", interrupt := false, ttlMs := 0,
                dedupeKey := "" }) 1 0).2.jobs ≠ []) ∧
    (∀ j ∈ (handleSpeak
        { maxTextLength := 1000, defaultVoice := "default",
          defaultTTL := 30000000000, bearerToken := "" }
        (NewQueue 100)
        (some { text := "hi", voice := "", interrupt := false, ttlMs := 0,
                dedupeKey := "" }) 1 0).2.jobs, IsExpired j 30000000001 = true) ∧
    ((dequeue (handleSpeak
        { maxTextLength := 1000, defaultVoice := "default",
          defaultTTL := 30000000000, bearerToken := "" }
        (NewQueue 100)
        (some { text := "hi", voice := "", interrupt := false, ttlMs := 0,
                dedupeKey := "" }) 1 0).2 30000000001).1 = none) := by
  decide

/-- C4 (amended): a speak request with `ttl_ms = 0` receives the
configured default TTL; the enqueued job never expires exactly when the
configured default TTL is zero, and with a positive default TTL it is
expired precisely once that duration has passed its creation. -/
theorem ttl_zero_amended (cfg : ApiConfig) (id : Nat) (text voice : String)
    (intr : Bool) (dk : String) (now : Int) :
    (cfg.defaultTTL ≤ 0 →
       ∀ t, IsExpired (NewSpeakJob id text voice intr (speakTTL cfg 0) dk now) t
         = false) ∧
    (0 < cfg.defaultTTL →
       ∀ t, IsExpired (NewSpeakJob id text voice intr (speakTTL cfg 0) dk now) t
         = decide (now + cfg.defaultTTL < t)) := by
  constructor
  · intro hle t
    have hTTL : speakTTL cfg 0 = 0 := by
      simp [speakTTL, Int.not_lt.mpr hle]
    simp [hTTL, NewSpeakJob, IsExpired]
  · intro hpos t
    have hTTL : speakTTL cfg 0 = cfg.defaultTTL := by
      simp [speakTTL, hpos]
    simp only [hTTL, NewSpeakJob, IsExpired, if_pos hpos]

/-- C4 witness: with default TTL zero a `ttl_ms = 0` job is still not
expired a million seconds later. -/
theorem ttl_zero_amended_witness :
    (({ maxTextLength := 1000, defaultVoice := "default", defaultTTL := 0,
        bearerToken := "" } : ApiConfig).defaultTTL ≤ 0) ∧
    IsExpired
      (NewSpeakJob 1 "hi" "default" false
        (speakTTL
          { maxTextLength := 1000, defaultVoice := "default", defaultTTL := 0,
            bearerToken := "" } 0) "" 0) 1000000000000000 = false := by
  refine ⟨by decide, ?_⟩
  exact (ttl_zero_amended
    { maxTextLength := 1000, defaultVoice := "default", defaultTTL := 0,
      bearerToken := "" } 1 "hi" "default" false "" 0).1 (by decide)
    1000000000000000

/-- C5: `Stop` marks the queue closed and, per the spec-modelled stop
sequence, cancels the in-flight context before the worker exit and
invokes the shutdown callback exactly once, strictly after the worker
has exited (and never when no callback was set). -/
theorem stop_shutdown_ordering (q : QueueState) (hasCancel : Bool) :
    (Stop q).closed = true ∧
    (StopTrace hasCancel true).count .shutdownCallback = 1 ∧
    (StopTrace hasCancel true).indexOf .workerExited <
      (StopTrace hasCancel true).indexOf .shutdownCallback ∧
    (StopTrace true true).indexOf .cancelCurrent <
      (StopTrace true true).indexOf .workerExited ∧
    (StopTrace hasCancel false).count .shutdownCallback = 0 := by
  refine ⟨rfl, ?_, ?_, by decide, ?_⟩ <;> cases hasCancel <;> decide

/-- C6: the speak handler answers 400 on an unparsable body, empty
text, byte length above the maximum, or negative `ttl_ms`; a text of
exactly the maximum length passes validation; otherwise it defaults an
empty voice, interrupts before enqueueing when asked to, and maps the
enqueue outcome to 503 (full), 409 (duplicate), 500 (other error) and
202 with the new job's id (success). -/
theorem handleSpeak_contract (cfg : ApiConfig) (q : QueueState)
    (req : SpeakRequest) (id : Nat) (now : Int) :
    let q1 := if req.interrupt then Interrupt q else q
    let job := NewSpeakJob id req.text
      (if req.voice = "" then cfg.defaultVoice else req.voice)
      req.interrupt (speakTTL cfg req.ttlMs) req.dedupeKey now
    (handleSpeak cfg q none id now = ({ status := 400, jobId := none }, q)) ∧
    (req.text = "" →
       handleSpeak cfg q (some req) id now
         = ({ status := 400, jobId := none }, q)) ∧
    (req.text.utf8ByteSize > cfg.maxTextLength →
       handleSpeak cfg q (some req) id now
         = ({ status := 400, jobId := none }, q)) ∧
    (req.ttlMs < 0 →
       handleSpeak cfg q (some req) id now
         = ({ status := 400, jobId := none }, q)) ∧
    (req.text ≠ "" → req.text.utf8ByteSize ≤ cfg.maxTextLength →
     0 ≤ req.ttlMs →
       ((Enqueue q1 job).1 = .queueFull →
          handleSpeak cfg q (some req) id now
            = ({ status := 503, jobId := none }, (Enqueue q1 job).2)) ∧
       ((Enqueue q1 job).1 = .duplicateJob →
          handleSpeak cfg q (some req) id now
            = ({ status := 409, jobId := none }, (Enqueue q1 job).2)) ∧
       ((Enqueue q1 job).1 = .queueClosed →
          handleSpeak cfg q (some req) id now
            = ({ status := 500, jobId := none }, (Enqueue q1 job).2)) ∧
       ((Enqueue q1 job).1 = .success →
          handleSpeak cfg q (some req) id now
            = ({ status := 202, jobId := some id }, (Enqueue q1 job).2))) := by
  intro q1 job
  have hInvalid : req.text = "" ∨ req.text.utf8ByteSize > cfg.maxTextLength ∨
      req.ttlMs < 0 →
      handleSpeak cfg q (some req) id now
        = ({ status := 400, jobId := none }, q) := by
    intro hcond
    simp only [handleSpeak]
    by_cases ht : req.text = ""
    · rw [if_pos ht]
    · by_cases hl : req.text.utf8ByteSize > cfg.maxTextLength
      · rw [if_neg ht, if_pos hl]
      · have httl : req.ttlMs < 0 := by tauto
        rw [if_neg ht, if_neg hl, if_pos httl]
  refine ⟨rfl, fun h => hInvalid (Or.inl h),
    fun h => hInvalid (Or.inr (Or.inl h)),
    fun h => hInvalid (Or.inr (Or.inr h)), ?_⟩
  intro hne hlen httl
  have hlen' : ¬ req.text.utf8ByteSize > cfg.maxTextLength := by omega
  have httl' : ¬ req.ttlMs < 0 := by omega
  have hbody : handleSpeak cfg q (some req) id now =
      (match Enqueue q1 job with
       | (.queueFull, q2) => ({ status := 503, jobId := none }, q2)
       | (.duplicateJob, q2) => ({ status := 409, jobId := none }, q2)
       | (.queueClosed, q2) => ({ status := 500, jobId := none }, q2)
       | (.success, q2) => ({ status := 202, jobId := some job.id }, q2)) := by
    simp only [handleSpeak]
    rw [if_neg hne, if_neg hlen', if_neg httl']
  rcases hE : Enqueue q1 job with ⟨r, q2⟩
  rw [hE] at hbody
  refine ⟨?_, ?_, ?_, ?_⟩ <;> intro hr <;> cases r <;> simp_all [NewSpeakJob]
  rfl

/-- C6 witness: a request with empty text is answered 400 and leaves
the queue untouched. -/
theorem handleSpeak_contract_witness :
    handleSpeak
      { maxTextLength := 1000, defaultVoice := "default", defaultTTL := 0,
        bearerToken := "" }
      (NewQueue 3)
      (some { text := "", voice := "", interrupt := false, ttlMs := 0,
              dedupeKey := "" }) 1 0
      = ({ status := 400, jobId := none }, NewQueue 3) := by
  exact (handleSpeak_contract
    { maxTextLength := 1000, defaultVoice := "default", defaultTTL := 0,
      bearerToken := "" }
    (NewQueue 3)
    { text := "", voice := "", interrupt := false, ttlMs := 0, dedupeKey := "" }
    1 0).2.1 rfl

/-- C7 counterexample: the token comparison middleware.go performs
(`token != s.cfg.BearerToken`, a short-circuiting string comparison) is
not constant-time: for the configured token `"aa"`, the candidates
`"ab"` and `"ba"` — same length, mismatch at different positions — take
a different number of character comparisons. -/
theorem auth_constant_time_counterexample :
    tokenCompareCost "aa" "ab" = 2 ∧ tokenCompareCost "aa" "ba" = 1 ∧
    tokenCompareCost "aa" "ab" ≠ tokenCompareCost "aa" "ba" := by
  decide

/-- C7 (amended): with a configured token the request reaches the
wrapped handler iff the Authorization header splits into exactly
`<scheme> <token>` with scheme case-insensitively `Bearer` and token
equal to the configured one; missing header, malformed header and
mismatched token are rejected distinctly; with no configured token
every request passes.  The token comparison is a plain short-circuiting
string equality, not constant-time. -/
theorem withAuth_matches_spec (t h : String) : withAuth t h = authSpec t h := by
  unfold withAuth authSpec
  by_cases ht : t = ""
  · simp [ht]
  · rw [if_neg ht, if_neg ht]
    by_cases hh : h = ""
    · subst hh
      rw [if_pos rfl]
      simp [splitTwo]
    · rw [if_neg hh]
      rcases hsp : splitTwo h with _ | ⟨a, _ | ⟨b, _ | ⟨c, rest⟩⟩⟩
      · simp [hsp, hh]
      · simp [hsp, hh]
      · by_cases hf : equalFoldAscii a "Bearer" = true
        · by_cases hb : b = t <;> simp [hsp, hf, hb]
        · simp [hsp, hf]
      · simp [hsp, hh]

/-- Unrolling of `readFrames` over a region of `k` whole frames. -/
theorem readFrames_run (k : Nat) : ∀ (d : List Nat) (off : Nat),
    off + DiscordFrameBytes * k ≤ d.length →
    readFrames { data := d, offset := off } k =
      ((List.range k).map
         (fun i => (d.drop (off + DiscordFrameBytes * i)).take DiscordFrameBytes),
       { data := d, offset := off + DiscordFrameBytes * k }) := by
  induction k with
  | zero => intro d off h; simp [readFrames]
  | succ n ih =>
    intro d off h
    have hle : off + DiscordFrameBytes ≤ d.length := by
      simp only [DiscordFrameBytes] at h ⊢; omega
    have hnot : ¬ (off + DiscordFrameBytes > d.length) := by omega
    have hRF : ReadFrame { data := d, offset := off } =
        (some ((d.drop off).take DiscordFrameBytes),
         { data := d, offset := off + DiscordFrameBytes }) := by
      simp [ReadFrame, hnot]
    have hbound : off + DiscordFrameBytes + DiscordFrameBytes * n ≤ d.length := by
      simp only [DiscordFrameBytes] at h ⊢; omega
    have hrest := ih d (off + DiscordFrameBytes) hbound
    simp only [readFrames, hRF, hrest]
    rw [List.range_succ_eq_map, List.map_cons, List.map_map]
    simp only [Prod.mk.injEq, List.cons.injEq, PCMFrameReader.mk.injEq]
    refine ⟨⟨?_, ?_⟩, ?_, ?_⟩
    · simp
    · apply List.map_congr_left
      intro i _
      have hx : off + DiscordFrameBytes * (i + 1)
          = off + DiscordFrameBytes + DiscordFrameBytes * i := by ring
      simp [Function.comp, hx]
    · trivial
    · ring

/-- `floor(len / frame_bytes)`: the number of whole frames in a buffer. -/
def frameCount (pcm : List Nat) : Nat := pcm.length / DiscordFrameBytes

/-- A full run of `ReadFrame` calls over a fresh reader on `pcm`. -/
def fullRun (pcm : List Nat) : List (List Nat) × PCMFrameReader :=
  readFrames (NewPCMFrameReader pcm) (frameCount pcm)

/-- C8: over a buffer of `n` bytes the frame reader yields exactly
`n / 3840` frames, the `i`-th being the `i`-th consecutive 3840-byte
slice; every frame is 3840 bytes long (the partial tail is never
returned); afterwards `ReadFrame` signals end-of-stream without moving;
and after `Reset` the same run is produced again. -/
theorem frame_reader_contract (pcm : List Nat) :
    (fullRun pcm).1 = (List.range (frameCount pcm)).map
        (fun i => (pcm.drop (DiscordFrameBytes * i)).take DiscordFrameBytes) ∧
    (fullRun pcm).1.length = frameCount pcm ∧
    (∀ f ∈ (fullRun pcm).1, f.length = DiscordFrameBytes) ∧
    ReadFrame (fullRun pcm).2 = (none, (fullRun pcm).2) ∧
    readFrames (Reset (fullRun pcm).2) (frameCount pcm) = fullRun pcm := by
  have hkdef : frameCount pcm = pcm.length / 3840 := rfl
  have hdm := Nat.div_add_mod pcm.length 3840
  have hmlt : pcm.length % 3840 < 3840 := Nat.mod_lt _ (by norm_num)
  have hk : 3840 * frameCount pcm ≤ pcm.length := by omega
  have hrun := readFrames_run (frameCount pcm) pcm 0
    (by show 0 + 3840 * frameCount pcm ≤ pcm.length; omega)
  have hr : fullRun pcm = ((List.range (frameCount pcm)).map
      (fun i => (pcm.drop (0 + DiscordFrameBytes * i)).take DiscordFrameBytes),
      { data := pcm, offset := 0 + DiscordFrameBytes * frameCount pcm }) := hrun
  refine ⟨?_, ?_, ?_, ?_, ?_⟩
  · rw [hr]; simp
  · rw [hr]; simp
  · intro f hf
    rw [hr] at hf
    simp only [List.mem_map, List.mem_range] at hf
    obtain ⟨i, hi, rfl⟩ := hf
    have h1 : 3840 * (i + 1) ≤ 3840 * frameCount pcm :=
      Nat.mul_le_mul_left _ (by omega)
    rw [List.length_take, List.length_drop]
    show min 3840 (pcm.length - (0 + 3840 * i)) = 3840
    omega
  · rw [hr]
    have hgt : 0 + 3840 * frameCount pcm + DiscordFrameBytes > pcm.length := by
      show 0 + 3840 * frameCount pcm + 3840 > pcm.length; omega
    show ReadFrame { data := pcm, offset := 0 + 3840 * frameCount pcm }
        = (none, { data := pcm, offset := 0 + 3840 * frameCount pcm })
    simp only [ReadFrame]
    rw [if_pos hgt]
  · have hreset : Reset (fullRun pcm).2 = { data := pcm, offset := 0 } := by
      rw [hr]; rfl
    rw [hreset]
    rw [show readFrames { data := pcm, offset := 0 } (frameCount pcm) = fullRun pcm
      from hrun.trans hr.symm]

/-- C8 witness: a buffer of exactly one frame yields that frame, and
every frame yielded is 3840 bytes. -/
theorem frame_reader_contract_witness :
    List.replicate 3840 (0 : Nat) ∈ (fullRun (List.replicate 3840 (0 : Nat))).1 ∧
    (List.replicate 3840 (0 : Nat)).length = DiscordFrameBytes := by
  have hmem : List.replicate 3840 (0 : Nat) ∈
      (fullRun (List.replicate 3840 (0 : Nat))).1 := by
    have h := (frame_reader_contract (List.replicate 3840 (0 : Nat))).1
    rw [h]
    have hk : frameCount (List.replicate 3840 (0 : Nat)) = 1 := by
      show (List.replicate 3840 (0 : Nat)).length / DiscordFrameBytes = 1
      rw [List.length_replicate]; decide
    have hr1 : List.range 1 = [0] := by decide
    rw [hk, hr1, List.map_singleton, Nat.mul_zero, List.drop_zero,
      List.take_replicate]
    have hmin : min DiscordFrameBytes 3840 = 3840 := by decide
    rw [hmin]
    exact List.mem_singleton_self _
  refine ⟨hmem, ?_⟩
  exact (frame_reader_contract (List.replicate 3840 (0 : Nat))).2.2.1
    (List.replicate 3840 (0 : Nat)) hmem

/-- C10: with the voice attachment live and a healthy speaking signal,
`SendAudio` on a buffer shorter than one 3840-byte frame (including the
empty buffer) sends no frame at all and returns `nil`, not an error. -/
theorem sendAudio_short_buffer (pcm : List Nat) (encodeOk : Nat → Bool)
    (h : pcm.length < DiscordFrameBytes) :
    SendAudio true true none encodeOk pcm = (.ok, []) := by
  have h0 : 0 + DiscordFrameBytes > pcm.length := by omega
  show sendLoop none encodeOk pcm 0 0 = (.ok, [])
  rw [sendLoop]
  rw [if_neg (by simp [cancelledAt])]
  rw [dif_pos h0]

/-- C10 witness: the empty buffer. -/
theorem sendAudio_short_buffer_witness :
    ([] : List Nat).length < DiscordFrameBytes ∧
    SendAudio true true none (fun _ => true) [] = (.ok, []) := by
  exact ⟨by decide, sendAudio_short_buffer [] (fun _ => true) (by decide)⟩

/-- The relay's part-assembly written as appends of singletons equals a
filter over the three-element candidate list, and the conditional
truncation equals an unconditional byte-level `take`. -/
theorem FormatText_eq (cfg : RelayConfig) (t m : Bytes) :
    FormatText cfg t m =
      (List.intercalate [58, 32]
        (([cfg.prefixText, t, m]).filter (fun p => p ≠ []))).take
        cfg.maxTextLength := by
  unfold FormatText
  have hparts :
      (if cfg.prefixText ≠ [] then [cfg.prefixText] else [])
          ++ (if t ≠ [] then [t] else []) ++ (if m ≠ [] then [m] else [])
        = ([cfg.prefixText, t, m]).filter (fun p => p ≠ []) := by
    by_cases h1 : cfg.prefixText = [] <;> by_cases h2 : t = [] <;>
      by_cases h3 : m = [] <;> simp [h1, h2, h3, List.filter]
  rw [hparts]
  by_cases hlen :
      (List.intercalate [58, 32]
        (([cfg.prefixText, t, m]).filter (fun p => p ≠ []))).length
        > cfg.maxTextLength
  · rw [if_pos hlen]
  · rw [if_neg hlen, List.take_of_length_le (by omega)]

/-- C9: for a `"message"` event the text submitted to `/v1/speak` is the
`": "`-join of the non-empty elements of `[prefix, title, message]`
truncated to its first `max_text_length` bytes; an empty result is
dropped; with a positive dedupe window the submitted dedupe key is the
lowercase hex encoding of the first 8 bytes of the SHA-256 of that text
(suppressed entirely when the fingerprint is still live in the window),
and with dedupe disabled the key submitted is empty. -/
theorem relay_message_contract (cfg : RelayConfig) (m : DedupeMap)
    (now : Int) (msg : NtfyMessage) (hev : msg.event = "message") :
    let specText := (List.intercalate [58, 32]
      (([cfg.prefixText, msg.title, msg.message]).filter (fun p => p ≠ []))).take
      cfg.maxTextLength
    (specText = [] → processEvent cfg m now msg = (none, m)) ∧
    (specText ≠ [] → cfg.dedupeWindow ≤ 0 →
       processEvent cfg m now msg = (some (specText, ""), m)) ∧
    (specText ≠ [] → 0 < cfg.dedupeWindow →
       isDuplicate m cfg.dedupeWindow now
         (hexEncode ((sha256 specText).take 8)) = false →
       processEvent cfg m now msg =
         (some (specText, hexEncode ((sha256 specText).take 8)),
          recordDedupeKey m now (hexEncode ((sha256 specText).take 8)))) ∧
    (specText ≠ [] → 0 < cfg.dedupeWindow →
       isDuplicate m cfg.dedupeWindow now
         (hexEncode ((sha256 specText).take 8)) = true →
       processEvent cfg m now msg = (none, m)) := by
  intro specText
  have hT : FormatText cfg msg.title msg.message = specText :=
    FormatText_eq cfg msg.title msg.message
  have hkey : generateDedupeKey specText = hexEncode ((sha256 specText).take 8) :=
    rfl
  refine ⟨?_, ?_, ?_, ?_⟩
  · intro hempty
    simp [processEvent, hev, hT, hempty]
  · intro hne hwin
    simp [processEvent, hev, hT, hne, Int.not_lt.mpr hwin]
  · intro hne hwin hdup
    simp [processEvent, hev, hT, hne, hwin, hkey, hdup]
  · intro hne hwin hdup
    simp [processEvent, hev, hT, hne, hwin, hkey, hdup]

/-- C9 witness: with prefix `"A"` (byte 65), title `"B"` and message
`"C"` and dedupe disabled, the relay submits `"A: B: C"` with an empty
dedupe key. -/
theorem relay_message_contract_witness :
    ({ event := "message", title := [66], message := [67] } : NtfyMessage).event
      = "message" ∧
    processEvent
      { prefixText := [65], interrupt := false, dedupeWindow := 0,
        maxTextLength := 1000 }
      [] 0 { event := "message", title := [66], message := [67] }
      = (some ([65, 58, 32, 66, 58, 32, 67], ""), []) := by
  refine ⟨rfl, ?_⟩
  have h := (relay_message_contract
    { prefixText := [65], interrupt := false, dedupeWindow := 0,
      maxTextLength := 1000 }
    [] 0 { event := "message", title := [66], message := [67] } rfl).2.1
    (by decide) (by decide)
  exact h

end Discorgeous
